import Mathlib

/-!
# Verification of the protocol-conformance core (`lib/AST/ProtocolConformance.cpp`)

A shallow embedding of the conformance data structures and of the
specialization algorithm:

* `Substitution` — archetype, replacement type and the conformances proving
  the replacement satisfies the archetype's constraints;
* `NormalConformance` — the ground conformance with write-once witness maps
  (`setTypeWitness`, `setWitness`);
* `ProtocolConformance` — the three-variant sum (`normal`, `specialized`,
  `inherited`) with `getTypeWitness` (the lazy, cached specialization
  algorithm), `getWitness`, and `getGenericParams`;
* a symbolic model of the `CONFORMANCE_SUBCLASS_DISPATCH` macro's
  compile-time override checks.

External collaborators (the nominal/generic type representation, the type
substitution engine, the module's conformance oracle and the declaration
model) are out of scope of the source and are modelled from the spec; the
environment `Env` packages the oracle and the declaration-model queries.

C++ assertions are modelled as explicit failures (`Option`/`Except`): the
embedding gives the semantics of the code with assertions enabled.
References returned by the C++ code (`const Substitution &` into a
conformance's own witness map) are modelled by `SubstRef`: the identity of
the storage location, i.e. the owning conformance object's id paired with
the associated-type key.  Pointer equality of uniqued types is modelled as
structural equality of `Ty`.
-/

set_option autoImplicit false

namespace ConformanceCore

/-- Identity of a conformance object in the arena (its address). -/
abbrev ObjectId := Nat

/-- Identity of an interface (protocol) declaration. -/
abbrev ProtocolId := Nat

/-- Identity of a nominal type declaration. -/
abbrev DeclId := Nat

/-- Identity of an archetype (abstract type parameter). -/
abbrev ArchetypeId := Nat

/-- A reference to a concrete declaration (a value witness). -/
abbrev ConcreteDeclRef := Nat

/-- Identity of a conformance object handed back by the module's oracle. -/
abbrev ConformanceId := Nat

mutual

/-- Modelled from the spec: the external nominal/generic type
representation.  The source only needs: archetypes (abstract parameters),
plain concrete types, nominal types with an optional enclosing parent
(`NominalType::getParent`), and bound generic instantiations
(`BoundGenericType`). -/
inductive Ty where
  | archetype (a : ArchetypeId)
  | base (i : Nat)
  | nominal (d : DeclId) (parent : TyOpt)
  | boundGeneric (d : DeclId) (args : TyList)
deriving DecidableEq, Repr

/-- An optional type (a nullable `Type` in the source's collaborators). -/
inductive TyOpt where
  | none
  | some (t : Ty)
deriving DecidableEq, Repr

/-- A list of type arguments of a bound generic instantiation. -/
inductive TyList where
  | nil
  | cons (t : Ty) (ts : TyList)
deriving DecidableEq, Repr

end

/-- First-match lookup in an association list (a map keyed by declaration
identity, as the source's `DenseMap` keyed by declaration pointers). -/
def lookupAssoc {α β : Type} [DecidableEq α] : List (α × β) → α → Option β
  | [], _ => Option.none
  | (k, v) :: rest, a => if k = a then Option.some v else lookupAssoc rest a

/-- Map update: replace the binding of `a` if present, else append it
(the semantics of `map[a] = v`). -/
def updateAssoc {α β : Type} [DecidableEq α] : List (α × β) → α → β → List (α × β)
  | [], a, v => [(a, v)]
  | (k, w) :: rest, a, v =>
      if k = a then (a, v) :: rest else (k, w) :: updateAssoc rest a v

mutual

/-- Modelled from the spec: the external type substitution engine
(`Type::subst`) in strict mode (`ignoreMissing = false`): every archetype
occurring in the type must be bound in the map, otherwise the whole
substitution is a hard failure. -/
def substTy (m : List (ArchetypeId × Ty)) : Ty → Option Ty
  | .archetype a => lookupAssoc m a
  | .base i => Option.some (.base i)
  | .nominal d p => (substTyOpt m p).map (fun q => .nominal d q)
  | .boundGeneric d args => (substTyList m args).map (fun bs => .boundGeneric d bs)

/-- Strict substitution through an optional type. -/
def substTyOpt (m : List (ArchetypeId × Ty)) : TyOpt → Option TyOpt
  | .none => Option.some .none
  | .some t => (substTy m t).map (fun u => .some u)

/-- Strict substitution through a list of type arguments. -/
def substTyList (m : List (ArchetypeId × Ty)) : TyList → Option TyList
  | .nil => Option.some .nil
  | .cons t ts =>
      match substTy m t, substTyList m ts with
      | Option.some u, Option.some us => Option.some (.cons u us)
      | _, _ => Option.none

end

mutual

/-- Whether archetype `p` occurs in a type. -/
def occursIn (p : ArchetypeId) : Ty → Bool
  | .archetype a => p = a
  | .base _ => false
  | .nominal _ par => occursInOpt p par
  | .boundGeneric _ args => occursInList p args

/-- Whether archetype `p` occurs in an optional type. -/
def occursInOpt (p : ArchetypeId) : TyOpt → Bool
  | .none => false
  | .some t => occursIn p t

/-- Whether archetype `p` occurs in a list of type arguments. -/
def occursInList (p : ArchetypeId) : TyList → Bool
  | .nil => false
  | .cons t ts => occursIn p t || occursInList p ts

end

/-- An associated-type declaration: its identity and the protocol that
declares it (`assocType->getDeclContext()`). -/
structure AssociatedTypeDecl where
  id : Nat
  declContext : ProtocolId
deriving DecidableEq, Repr

/-- A value requirement declaration: its identity, the protocol that
declares it, and whether it is itself an associated-type declaration
(`isa<AssociatedTypeDecl>`). -/
structure ValueDecl where
  id : Nat
  declContext : ProtocolId
  isAssociatedType : Bool
deriving DecidableEq, Repr

/-- `Substitution`: an archetype, its concrete replacement, and the
conformances proving the replacement satisfies the archetype's required
interfaces. -/
structure Substitution where
  archetype : ArchetypeId
  replacement : Ty
  conformances : List ConformanceId
deriving DecidableEq, Repr

/-- The state of a normal conformance. -/
inductive ProtocolConformanceState where
  | incomplete
  | complete
deriving DecidableEq, Repr

/-- `NormalProtocolConformance`: the ground conformance with its
write-once witness maps (`TypeWitnesses` and `Mapping`). -/
structure NormalConformance where
  oid : ObjectId
  protocol : ProtocolId
  conformingType : Ty
  state : ProtocolConformanceState
  typeWitnesses : List (AssociatedTypeDecl × Substitution)
  mapping : List (ValueDecl × ConcreteDeclRef)
deriving DecidableEq, Repr

/-- Whether the conformance is complete (`isComplete()`). -/
def NormalConformance.isComplete (n : NormalConformance) : Bool :=
  n.state = ProtocolConformanceState.complete

/-- `NormalProtocolConformance::setTypeWitness`.  The three assertions of
the source, in order: the associated type must belong to this conformance's
protocol, the type witness must not already be known, and the conformance
must not be complete; a failed assertion is `none`. -/
def NormalConformance.setTypeWitness (n : NormalConformance)
    (assocType : AssociatedTypeDecl) (substitution : Substitution) :
    Option NormalConformance :=
  if n.protocol ≠ assocType.declContext then Option.none
  else if (lookupAssoc n.typeWitnesses assocType).isSome then Option.none
  else if n.isComplete then Option.none
  else Option.some
    { n with typeWitnesses := updateAssoc n.typeWitnesses assocType substitution }

/-- `NormalProtocolConformance::setWitness`.  The four assertions of the
source, in order: the requirement must not be an associated-type
declaration, it must belong to this conformance's protocol, the witness
must not already be known, and the conformance must not be complete. -/
def NormalConformance.setWitness (n : NormalConformance)
    (requirement : ValueDecl) (witness : ConcreteDeclRef) :
    Option NormalConformance :=
  if requirement.isAssociatedType then Option.none
  else if n.protocol ≠ requirement.declContext then Option.none
  else if (lookupAssoc n.mapping requirement).isSome then Option.none
  else if n.isComplete then Option.none
  else Option.some { n with mapping := updateAssoc n.mapping requirement witness }

/-- The three-variant conformance sum.  `specialized` wraps the generic
conformance it was derived from, the substitution list
(`GenericSubstitutions`) and its lazily populated type-witness cache
(`TypeWitnesses`); `inherited` wraps the underlying conformance. -/
inductive ProtocolConformance where
  | normal (n : NormalConformance)
  | specialized (oid : ObjectId) (genericConformance : ProtocolConformance)
      (genericSubstitutions : List Substitution)
      (typeWitnesses : List (AssociatedTypeDecl × Substitution))
  | inherited (inheritedConformance : ProtocolConformance)
deriving DecidableEq, Repr

/-- The conformance kind tag. -/
inductive ProtocolConformanceKind where
  | normal
  | specialized
  | inherited
deriving DecidableEq, Repr

/-- `getKind()`. -/
def ProtocolConformance.getKind : ProtocolConformance → ProtocolConformanceKind
  | .normal _ => ProtocolConformanceKind.normal
  | .specialized _ _ _ _ => ProtocolConformanceKind.specialized
  | .inherited _ => ProtocolConformanceKind.inherited

/-- The environment packaging the external collaborators of the source:
the module's conformance oracle (`lookupConformance`, `none` = "does not
conform"), the declaration model's `archetype->getConformsTo()`, the
nominal type model's `decl->getDeclaredTypeInContext()` and
`decl->getGenericParams()` (`[]` = the declaration is not generic: the
source's null `GenericParamList*` is modelled separately by the query's
`Option` result). -/
structure Env where
  lookupConformance : Ty → ProtocolId → Option ConformanceId
  archConformsTo : ArchetypeId → List ProtocolId
  declaredTypeInContext : DeclId → Ty
  genericParamsOf : DeclId → List Nat

/-- Failures of the conformance queries (each a C++ assertion firing or a
strict-substitution failure). -/
inductive ConfError where
  | missingWitness
  | substitutionFailure
  | invariantViolation
  | constrainedGenericUnimplemented
deriving DecidableEq, Repr

/-- The identity of the storage location a returned
`const Substitution &` points into: the owning conformance object's id
paired with the associated-type key of its map entry. -/
abbrev SubstRef := ObjectId × AssociatedTypeDecl

/-- The `TypeSubstitutionMap` built by `SpecializedProtocolConformance::
getTypeWitness`: for each substitution in order,
`map[substitution.Archetype] = substitution.Replacement`. -/
def buildSubstitutionMap (subs : List Substitution) : List (ArchetypeId × Ty) :=
  subs.foldl (fun m s => updateAssoc m s.archetype s.replacement) []

/-- The slow path's conformance-gathering loop: for each interface the
archetype is declared to conform to, ask the module's oracle whether the
specialized type conforms; a "no" answer fires the
`"Improperly checked substitution"` assertion (`none`). -/
def gatherConformances (env : Env) (specializedType : Ty) :
    List ProtocolId → Option (List ConformanceId)
  | [] => Option.some []
  | q :: qs =>
      match env.lookupConformance specializedType q,
            gatherConformances env specializedType qs with
      | Option.some c, Option.some cs => Option.some (c :: cs)
      | _, _ => Option.none

/-- `getTypeWitness`, dispatched over the three variants.
`normal`: a simple lookup into the witness map (modelled from the spec:
the body is not in the source file; failure if absent is a caller-visible
logic error).  `inherited`: pure delegation (modelled from the spec).
`specialized`: the specialization algorithm of the source — cache check,
substitution-map construction, recursive fetch of the generic witness,
strict substitution, the no-op fast path that copies the generic witness
into the cache, and the slow path that re-derives the nested conformances
and caches a freshly constructed `Substitution`.  The result carries the
reference identity of the returned `const Substitution &`, its value, and
the updated conformance (the caches it mutated). -/
def ProtocolConformance.getTypeWitness (env : Env) :
    ProtocolConformance → AssociatedTypeDecl →
    Except ConfError (SubstRef × Substitution × ProtocolConformance)
  | .normal n, assocType =>
      match lookupAssoc n.typeWitnesses assocType with
      | Option.some s => .ok ((n.oid, assocType), s, .normal n)
      | Option.none => .error ConfError.missingWitness
  | .inherited u, assocType =>
      match u.getTypeWitness env assocType with
      | .ok (r, s, u') => .ok (r, s, .inherited u')
      | .error e => .error e
  | .specialized oid generic subs cache, assocType =>
      match lookupAssoc cache assocType with
      | Option.some s => .ok ((oid, assocType), s, .specialized oid generic subs cache)
      | Option.none =>
        match generic.getTypeWitness env assocType with
        | .error e => .error e
        | .ok (_, genericWitness, generic') =>
          match substTy (buildSubstitutionMap subs) genericWitness.replacement with
          | Option.none => .error ConfError.substitutionFailure
          | Option.some specializedType =>
            if specializedType = genericWitness.replacement then
              .ok ((oid, assocType), genericWitness,
                   .specialized oid generic' subs
                     (updateAssoc cache assocType genericWitness))
            else
              match gatherConformances env specializedType
                      (env.archConformsTo genericWitness.archetype) with
              | Option.none => .error ConfError.invariantViolation
              | Option.some confs =>
                .ok ((oid, assocType),
                     ⟨genericWitness.archetype, specializedType, confs⟩,
                     .specialized oid generic' subs
                       (updateAssoc cache assocType
                         ⟨genericWitness.archetype, specializedType, confs⟩))

/-- `getWitness`, dispatched over the three variants.  `normal`: a simple
lookup into the value-witness map (modelled from the spec: the body is not
in the source file).  `inherited`: pure delegation (modelled from the
spec).  `specialized`: the source's direct pass-through to the generic
conformance, with no substitution applied. -/
def ProtocolConformance.getWitness :
    ProtocolConformance → ValueDecl → Option ConcreteDeclRef
  | .normal n, requirement => lookupAssoc n.mapping requirement
  | .inherited u, requirement => u.getWitness requirement
  | .specialized _ generic _ _, requirement => generic.getWitness requirement

/-- The parent-stripping loop of `getGenericParams`: while the type is a
`NominalType`, replace it by its parent; the loop also stops when the type
becomes null (`none`). -/
def stripNominalParents : Ty → Option Ty
  | .nominal _ TyOpt.none => Option.none
  | .nominal _ (TyOpt.some p) => stripNominalParents p
  | t => Option.some t

/-- `ProtocolConformance::getGenericParams`.  For `normal`: strip nested
nominal parents from the conforming type; a null result or a non-generic
root yields a null parameter list (`none`); a bound generic root yields its
declaration's formal generic parameter list, guarded by the source's
`"conformance for constrained generic type not implemented"` assertion
that the root equals the declaration's declared type in context.  For
`specialized` and `inherited`: a null parameter list unconditionally. -/
def ProtocolConformance.getGenericParams (env : Env) :
    ProtocolConformance → Except ConfError (Option (List Nat))
  | .normal n =>
      match stripNominalParents n.conformingType with
      | Option.none => .ok Option.none
      | Option.some ty =>
          match ty with
          | .boundGeneric d args =>
              if Ty.boundGeneric d args = env.declaredTypeInContext d then
                .ok (Option.some (env.genericParamsOf d))
              else
                .error ConfError.constrainedGenericUnimplemented
          | _ => .ok Option.none
  | .specialized _ _ _ _ => .ok Option.none
  | .inherited _ => .ok Option.none

/-- The class to which the `CONFORMANCE_SUBCLASS_DISPATCH` macro casts
`this` in each `switch` case before invoking the variant's own method. -/
def dispatchCastTarget : ProtocolConformanceKind → ProtocolConformanceKind
  | ProtocolConformanceKind.normal => ProtocolConformanceKind.normal
  | ProtocolConformanceKind.specialized => ProtocolConformanceKind.specialized
  | ProtocolConformanceKind.inherited => ProtocolConformanceKind.inherited

/-- The class whose override the `CONFORMANCE_SUBCLASS_DISPATCH` macro's
`static_assert` checks in each `switch` case (`&ProtocolConformance::Method
!= &Subclass::Method`).  Transcribed from the source: the `Normal` case
checks `NormalProtocolConformance`, but the `Specialized` case checks
`InheritedProtocolConformance` — not `SpecializedProtocolConformance` —
and the `Inherited` case checks `InheritedProtocolConformance`. -/
def dispatchAssertCheckedClass : ProtocolConformanceKind → ProtocolConformanceKind
  | ProtocolConformanceKind.normal => ProtocolConformanceKind.normal
  | ProtocolConformanceKind.specialized => ProtocolConformanceKind.inherited
  | ProtocolConformanceKind.inherited => ProtocolConformanceKind.inherited

/-! ## Association-list lemmas -/

theorem lookupAssoc_updateAssoc_self {α β : Type} [DecidableEq α]
    (m : List (α × β)) (a : α) (v : β) :
    lookupAssoc (updateAssoc m a v) a = Option.some v := by
  induction m with
  | nil => simp [updateAssoc, lookupAssoc]
  | cons kv rest ih =>
      obtain ⟨k, w⟩ := kv
      by_cases hk : k = a
      · simp [updateAssoc, lookupAssoc, hk]
      · simp [updateAssoc, lookupAssoc, hk, ih]

theorem lookupAssoc_updateAssoc_ne {α β : Type} [DecidableEq α]
    (m : List (α × β)) (a b : α) (v : β) (hne : a ≠ b) :
    lookupAssoc (updateAssoc m a v) b = lookupAssoc m b := by
  induction m with
  | nil => simp [updateAssoc, lookupAssoc, hne]
  | cons kv rest ih =>
      obtain ⟨k, w⟩ := kv
      by_cases hk : k = a
      · subst hk
        simp [updateAssoc, lookupAssoc, hne]
      · simp [updateAssoc, lookupAssoc, hk, ih]

/-! ## Conformance-gathering lemmas -/

theorem gatherConformances_mem (env : Env) (t : Ty) (qs : List ProtocolId)
    (cs : List ConformanceId)
    (h : gatherConformances env t qs = Option.some cs) :
    ∀ q ∈ qs, ∃ c, env.lookupConformance t q = Option.some c ∧ c ∈ cs := by
  induction qs generalizing cs with
  | nil => intro q hq; cases hq
  | cons q0 rest ih =>
      intro q hq
      rw [gatherConformances] at h
      cases hl : env.lookupConformance t q0 with
      | none => rw [hl] at h; cases h
      | some c0 =>
          rw [hl] at h
          cases hr : gatherConformances env t rest with
          | none => rw [hr] at h; cases h
          | some cs0 =>
              rw [hr] at h
              cases h
              rcases List.mem_cons.mp hq with hq0 | hqr
              · exact ⟨c0, by rw [hq0]; exact hl, List.mem_cons_self _ _⟩
              · obtain ⟨c, hc, hmem⟩ := ih cs0 hr q hqr
                exact ⟨c, hc, List.mem_cons_of_mem _ hmem⟩

theorem gatherConformances_length (env : Env) (t : Ty) (qs : List ProtocolId)
    (cs : List ConformanceId)
    (h : gatherConformances env t qs = Option.some cs) :
    cs.length = qs.length := by
  induction qs generalizing cs with
  | nil => rw [gatherConformances] at h; cases h; rfl
  | cons q0 rest ih =>
      rw [gatherConformances] at h
      cases hl : env.lookupConformance t q0 with
      | none => rw [hl] at h; cases h
      | some c0 =>
          rw [hl] at h
          cases hr : gatherConformances env t rest with
          | none => rw [hr] at h; cases h
          | some cs0 =>
              rw [hr] at h
              cases h
              simp [List.length_cons, ih cs0 hr]

theorem gatherConformances_get (env : Env) (t : Ty) (qs : List ProtocolId)
    (cs : List ConformanceId)
    (h : gatherConformances env t qs = Option.some cs) :
    ∀ (i : Nat) (h1 : i < qs.length) (h2 : i < cs.length),
      env.lookupConformance t (qs.get ⟨i, h1⟩) = Option.some (cs.get ⟨i, h2⟩) := by
  induction qs generalizing cs with
  | nil => intro i h1 _; exact absurd h1 (Nat.not_lt_zero i)
  | cons q0 rest ih =>
      intro i h1 h2
      rw [gatherConformances] at h
      cases hl : env.lookupConformance t q0 with
      | none => rw [hl] at h; cases h
      | some c0 =>
          rw [hl] at h
          cases hr : gatherConformances env t rest with
          | none => rw [hr] at h; cases h
          | some cs0 =>
              rw [hr] at h
              cases h
              cases i with
              | zero => exact hl
              | succ j =>
                  exact ih cs0 hr j (Nat.lt_of_succ_lt_succ h1)
                    (Nat.lt_of_succ_lt_succ h2)

theorem gatherConformances_none_of_lookup_none (env : Env) (t : Ty)
    (qs : List ProtocolId) (q : ProtocolId) (hq : q ∈ qs)
    (hno : env.lookupConformance t q = Option.none) :
    gatherConformances env t qs = Option.none := by
  induction qs with
  | nil => cases hq
  | cons q0 rest ih =>
      rw [gatherConformances]
      rcases List.mem_cons.mp hq with hq0 | hqr
      · rw [hq0] at hno
        rw [hno]
      · rw [ih hqr]
        cases env.lookupConformance t q0 <;> rfl

/-! ## Strict-substitution lemmas -/

mutual

theorem substTy_none_of_occurs (m : List (ArchetypeId × Ty)) (p : ArchetypeId)
    (hm : lookupAssoc m p = Option.none) :
    ∀ t : Ty, occursIn p t = true → substTy m t = Option.none
  | Ty.archetype a, h => by
      rw [occursIn] at h
      rw [substTy]
      have : p = a := by simpa using h
      rw [← this]; exact hm
  | Ty.base i, h => by rw [occursIn] at h; cases h
  | Ty.nominal d par, h => by
      rw [occursIn] at h
      rw [substTy, substTyOpt_none_of_occurs m p hm par h]
      rfl
  | Ty.boundGeneric d args, h => by
      rw [occursIn] at h
      rw [substTy, substTyList_none_of_occurs m p hm args h]
      rfl

theorem substTyOpt_none_of_occurs (m : List (ArchetypeId × Ty)) (p : ArchetypeId)
    (hm : lookupAssoc m p = Option.none) :
    ∀ t : TyOpt, occursInOpt p t = true → substTyOpt m t = Option.none
  | TyOpt.none, h => by rw [occursInOpt] at h; cases h
  | TyOpt.some t, h => by
      rw [occursInOpt] at h
      rw [substTyOpt, substTy_none_of_occurs m p hm t h]
      rfl

theorem substTyList_none_of_occurs (m : List (ArchetypeId × Ty)) (p : ArchetypeId)
    (hm : lookupAssoc m p = Option.none) :
    ∀ t : TyList, occursInList p t = true → substTyList m t = Option.none
  | TyList.nil, h => by rw [occursInList] at h; cases h
  | TyList.cons t ts, h => by
      rw [occursInList] at h
      rw [substTyList]
      rcases Bool.or_eq_true_iff.mp h with h1 | h2
      · rw [substTy_none_of_occurs m p hm t h1]
      · rw [substTyList_none_of_occurs m p hm ts h2]
        cases substTy m t <;> rfl

end

/-- If no substitution in the list binds archetype `p`, the constructed
substitution map has no entry for `p`. -/
theorem buildSubstitutionMap_lookup_none (subs : List Substitution)
    (p : ArchetypeId) (h : ∀ s ∈ subs, s.archetype ≠ p) :
    lookupAssoc (buildSubstitutionMap subs) p = Option.none := by
  have gen : ∀ (l : List Substitution) (acc : List (ArchetypeId × Ty)),
      (∀ s ∈ l, s.archetype ≠ p) → lookupAssoc acc p = Option.none →
      lookupAssoc (l.foldl (fun m s => updateAssoc m s.archetype s.replacement) acc) p
        = Option.none := by
    intro l
    induction l with
    | nil => intro acc _ hacc; exact hacc
    | cons s rest ih =>
        intro acc hl hacc
        rw [List.foldl_cons]
        refine ih _ (fun u hu => hl u (List.mem_cons_of_mem _ hu)) ?_
        rw [lookupAssoc_updateAssoc_ne _ _ _ _ (hl s (List.mem_cons_self _ _))]
        exact hacc
  exact gen subs [] h (by rfl)

/-- An entry present in a map before an update of a key that was absent is
still present, with the same value, after the update. -/
theorem lookupAssoc_updateAssoc_mono {α β : Type} [DecidableEq α]
    (m : List (α × β)) (a b : α) (v w : β)
    (hmiss : lookupAssoc m a = Option.none)
    (hb : lookupAssoc m b = Option.some w) :
    lookupAssoc (updateAssoc m a v) b = Option.some w := by
  by_cases hab : a = b
  · subst hab
    rw [hmiss] at hb
    cases hb
  · rw [lookupAssoc_updateAssoc_ne m a b v hab]
    exact hb

/-! ## Claim theorems -/

/-- C1: when the generic witness's archetype requires interfaces `Q1..Qn`
and the substitution changes the witness's replacement type, the slow path
of `SpecializedProtocolConformance::getTypeWitness` queries the module's
conformance oracle for the specialized type against each required
interface, and the `Substitution` it constructs, caches and returns
includes a conformance object for the specialized type conforming to each
such interface. -/
theorem c1_slow_path_rederives_nested_conformances (env : Env)
    (oid : ObjectId) (generic : ProtocolConformance)
    (subs : List Substitution) (cache : List (AssociatedTypeDecl × Substitution))
    (assocType : AssociatedTypeDecl) (rg : SubstRef) (gw : Substitution)
    (generic' : ProtocolConformance) (specializedType : Ty)
    (confs : List ConformanceId)
    (hmiss : lookupAssoc cache assocType = Option.none)
    (hgen : generic.getTypeWitness env assocType = .ok (rg, gw, generic'))
    (hsub : substTy (buildSubstitutionMap subs) gw.replacement =
      Option.some specializedType)
    (hchanged : specializedType ≠ gw.replacement)
    (horacle : gatherConformances env specializedType
      (env.archConformsTo gw.archetype) = Option.some confs) :
    (ProtocolConformance.specialized oid generic subs cache).getTypeWitness
        env assocType =
      .ok ((oid, assocType), ⟨gw.archetype, specializedType, confs⟩,
        ProtocolConformance.specialized oid generic' subs
          (updateAssoc cache assocType
            ⟨gw.archetype, specializedType, confs⟩)) ∧
    lookupAssoc (updateAssoc cache assocType
        ⟨gw.archetype, specializedType, confs⟩) assocType =
      Option.some ⟨gw.archetype, specializedType, confs⟩ ∧
    ∀ q ∈ env.archConformsTo gw.archetype,
      ∃ c, env.lookupConformance specializedType q = Option.some c ∧
        c ∈ confs := by
  refine ⟨?_, lookupAssoc_updateAssoc_self _ _ _,
    gatherConformances_mem env specializedType _ confs horacle⟩
  simp only [ProtocolConformance.getTypeWitness, hmiss, hgen, hsub, horacle]
  rw [if_neg hchanged]

/-- C10: on the slow path, the constructed `Substitution` keeps the generic
witness's archetype, uses the substituted type as its replacement, and its
conformance list has exactly one entry per interface in the archetype's
declared conforms-to list, in the same order. -/
theorem c10_slow_path_substitution_structure (env : Env)
    (oid : ObjectId) (generic : ProtocolConformance)
    (subs : List Substitution) (cache : List (AssociatedTypeDecl × Substitution))
    (assocType : AssociatedTypeDecl) (rg : SubstRef) (gw : Substitution)
    (generic' : ProtocolConformance) (specializedType : Ty)
    (confs : List ConformanceId)
    (hmiss : lookupAssoc cache assocType = Option.none)
    (hgen : generic.getTypeWitness env assocType = .ok (rg, gw, generic'))
    (hsub : substTy (buildSubstitutionMap subs) gw.replacement =
      Option.some specializedType)
    (hchanged : specializedType ≠ gw.replacement)
    (horacle : gatherConformances env specializedType
      (env.archConformsTo gw.archetype) = Option.some confs) :
    ∃ witness : Substitution,
      (ProtocolConformance.specialized oid generic subs cache).getTypeWitness
          env assocType =
        .ok ((oid, assocType), witness,
          ProtocolConformance.specialized oid generic' subs
            (updateAssoc cache assocType witness)) ∧
      witness.archetype = gw.archetype ∧
      witness.replacement = specializedType ∧
      witness.conformances.length =
        (env.archConformsTo gw.archetype).length ∧
      ∀ (i : Nat) (h1 : i < (env.archConformsTo gw.archetype).length)
          (h2 : i < witness.conformances.length),
        env.lookupConformance specializedType
            ((env.archConformsTo gw.archetype).get ⟨i, h1⟩) =
          Option.some (witness.conformances.get ⟨i, h2⟩) := by
  refine ⟨⟨gw.archetype, specializedType, confs⟩, ?_, rfl, rfl,
    gatherConformances_length env specializedType _ confs horacle,
    gatherConformances_get env specializedType _ confs horacle⟩
  simp only [ProtocolConformance.getTypeWitness, hmiss, hgen, hsub, horacle]
  rw [if_neg hchanged]

/-- C2 (amended): on the no-op fast path, `getTypeWitness` copies the
generic witness's `Substitution` value into its own cache and returns a
reference to that cache entry: the returned value equals the generic
witness field for field, but the reference is the specialized conformance's
own map entry. -/
theorem c2_noop_substitution_cached_copy (env : Env)
    (oid : ObjectId) (generic : ProtocolConformance)
    (subs : List Substitution) (cache : List (AssociatedTypeDecl × Substitution))
    (assocType : AssociatedTypeDecl) (rg : SubstRef) (gw : Substitution)
    (generic' : ProtocolConformance)
    (hmiss : lookupAssoc cache assocType = Option.none)
    (hgen : generic.getTypeWitness env assocType = .ok (rg, gw, generic'))
    (hsub : substTy (buildSubstitutionMap subs) gw.replacement =
      Option.some gw.replacement) :
    (ProtocolConformance.specialized oid generic subs cache).getTypeWitness
        env assocType =
      .ok ((oid, assocType), gw,
        ProtocolConformance.specialized oid generic' subs
          (updateAssoc cache assocType gw)) ∧
    lookupAssoc (updateAssoc cache assocType gw) assocType =
      Option.some gw := by
  refine ⟨?_, lookupAssoc_updateAssoc_self _ _ _⟩
  simp only [ProtocolConformance.getTypeWitness, hmiss, hgen, hsub, if_true]

/-! ### Concrete fast-path scenario

A generic normal conformance (object id 0) whose witness for associated
type `assocA` has a concrete replacement `Ty.base 7`, specialized (object
id 1) with an empty substitution list, so the substitution is a no-op. -/

/-- Associated type `A` of protocol 0. -/
def assocA : AssociatedTypeDecl := ⟨0, 0⟩

/-- The generic conformance's witness for `assocA`. -/
def genWitnessA : Substitution := ⟨5, Ty.base 7, []⟩

/-- The generic normal conformance, object id 0. -/
def normalA : NormalConformance :=
  ⟨0, 0, Ty.base 1, ProtocolConformanceState.incomplete,
    [(assocA, genWitnessA)], []⟩

/-- An environment whose oracle and declaration model are unused by the
fast path. -/
def envA : Env :=
  ⟨fun _ _ => Option.none, fun _ => [], fun _ => Ty.base 0, fun _ => []⟩

/-- The specialized conformance, object id 1, empty substitution list,
empty cache. -/
def specializedA : ProtocolConformance :=
  ProtocolConformance.specialized 1 (ProtocolConformance.normal normalA) [] []

/-- C2 (counterexample): on the no-op fast path the returned
`Substitution` is *not* identity-equal to the generic conformance's
witness: the specialized conformance returns a reference to its own cache
entry (object id 1), the generic conformance's witness lives in the
generic conformance's map (object id 0), and the two references differ
even though the two values are equal field for field. -/
theorem c2_fast_path_identity_counterexample :
    specializedA.getTypeWitness envA assocA =
      .ok ((1, assocA), genWitnessA,
        ProtocolConformance.specialized 1 (ProtocolConformance.normal normalA)
          [] [(assocA, genWitnessA)]) ∧
    (ProtocolConformance.normal normalA).getTypeWitness envA assocA =
      .ok ((0, assocA), genWitnessA, ProtocolConformance.normal normalA) ∧
    ((1, assocA) : SubstRef) ≠ ((0, assocA) : SubstRef) :=
  ⟨rfl, rfl, by decide⟩

/-- C2 (witness): the amended fast-path theorem applied to the concrete
scenario. -/
theorem c2_noop_substitution_cached_copy_witness :
    specializedA.getTypeWitness envA assocA =
      .ok ((1, assocA), genWitnessA,
        ProtocolConformance.specialized 1 (ProtocolConformance.normal normalA)
          [] (updateAssoc [] assocA genWitnessA)) ∧
    lookupAssoc (updateAssoc [] assocA genWitnessA) assocA =
      Option.some genWitnessA :=
  c2_noop_substitution_cached_copy envA 1 (ProtocolConformance.normal normalA)
    [] [] assocA (0, assocA) genWitnessA (ProtocolConformance.normal normalA)
    rfl rfl rfl

/-! ### Concrete slow-path scenario

A generic normal conformance (object id 0) for protocol 3 whose witness
for `assocB` replaces with archetype 2; archetype 2 is declared to require
interfaces 4 and 5; the specialization substitutes archetype 2 by
`Ty.base 9`, and the oracle derives conformances 40 and 50. -/

/-- Associated type `B` of protocol 3. -/
def assocB : AssociatedTypeDecl := ⟨1, 3⟩

/-- The generic conformance's witness for `assocB`: archetype 2 replaced
by itself (still abstract in the generic conformance). -/
def genWitnessB : Substitution := ⟨2, Ty.archetype 2, []⟩

/-- The generic normal conformance for protocol 3, object id 0. -/
def normalB : NormalConformance :=
  ⟨0, 3, Ty.base 1, ProtocolConformanceState.incomplete,
    [(assocB, genWitnessB)], []⟩

/-- The environment for the slow-path scenario: archetype 2 requires
interfaces 4 and 5, and `Ty.base 9` conforms to them via conformances 40
and 50. -/
def envB : Env :=
  ⟨fun t q =>
      if t = Ty.base 9 ∧ q = 4 then Option.some 40
      else if t = Ty.base 9 ∧ q = 5 then Option.some 50
      else Option.none,
    fun a => if a = 2 then [4, 5] else [],
    fun _ => Ty.base 0, fun _ => []⟩

/-- The substitution list replacing archetype 2 by `Ty.base 9`. -/
def subsB : List Substitution := [⟨2, Ty.base 9, []⟩]

/-- The specialized conformance for the slow-path scenario, object id 1. -/
def specializedB : ProtocolConformance :=
  ProtocolConformance.specialized 1 (ProtocolConformance.normal normalB)
    subsB []

/-- The specialized witness the slow-path scenario derives: archetype 2
replaced by `Ty.base 9` with conformances 40 and 50. -/
def specWitnessB : Substitution := ⟨2, Ty.base 9, [40, 50]⟩

/-- C1 (witness): the slow-path theorem applied to the concrete scenario,
with every hypothesis discharged there. -/
theorem c1_slow_path_witness :
    specializedB.getTypeWitness envB assocB =
      .ok ((1, assocB), specWitnessB,
        ProtocolConformance.specialized 1 (ProtocolConformance.normal normalB)
          subsB (updateAssoc [] assocB specWitnessB)) ∧
    lookupAssoc (updateAssoc [] assocB specWitnessB) assocB =
      Option.some specWitnessB ∧
    ∀ q ∈ envB.archConformsTo 2,
      ∃ c, envB.lookupConformance (Ty.base 9) q = Option.some c ∧
        c ∈ [40, 50] :=
  c1_slow_path_rederives_nested_conformances envB 1
    (ProtocolConformance.normal normalB) subsB [] assocB (0, assocB)
    genWitnessB (ProtocolConformance.normal normalB) (Ty.base 9) [40, 50]
    rfl rfl rfl (by decide) rfl

/-- C10 (witness): the slow-path structure theorem applied to the concrete
scenario. -/
theorem c10_slow_path_structure_witness :
    ∃ witness : Substitution,
      specializedB.getTypeWitness envB assocB =
        .ok ((1, assocB), witness,
          ProtocolConformance.specialized 1
            (ProtocolConformance.normal normalB) subsB
            (updateAssoc [] assocB witness)) ∧
      witness.archetype = 2 ∧
      witness.replacement = Ty.base 9 ∧
      witness.conformances.length = (envB.archConformsTo 2).length ∧
      ∀ (i : Nat) (h1 : i < (envB.archConformsTo 2).length)
          (h2 : i < witness.conformances.length),
        envB.lookupConformance (Ty.base 9)
            ((envB.archConformsTo 2).get ⟨i, h1⟩) =
          Option.some (witness.conformances.get ⟨i, h2⟩) :=
  c10_slow_path_substitution_structure envB 1
    (ProtocolConformance.normal normalB) subsB [] assocB (0, assocB)
    genWitnessB (ProtocolConformance.normal normalB) (Ty.base 9) [40, 50]
    rfl rfl rfl (by decide) rfl

/-- C4: if the substitution list omits an abstract parameter occurring in
the generic witness's replacement type, `getTypeWitness` is invoked in
strict mode and fails hard instead of returning a result with the
parameter left unsubstituted. -/
theorem c4_strict_substitution_failure (env : Env)
    (oid : ObjectId) (generic : ProtocolConformance)
    (subs : List Substitution) (cache : List (AssociatedTypeDecl × Substitution))
    (assocType : AssociatedTypeDecl) (rg : SubstRef) (gw : Substitution)
    (generic' : ProtocolConformance) (p : ArchetypeId)
    (hmiss : lookupAssoc cache assocType = Option.none)
    (hgen : generic.getTypeWitness env assocType = .ok (rg, gw, generic'))
    (hocc : occursIn p gw.replacement = true)
    (homit : ∀ s ∈ subs, s.archetype ≠ p) :
    (ProtocolConformance.specialized oid generic subs cache).getTypeWitness
        env assocType = .error ConfError.substitutionFailure := by
  have hmap : lookupAssoc (buildSubstitutionMap subs) p = Option.none :=
    buildSubstitutionMap_lookup_none subs p homit
  have hsub : substTy (buildSubstitutionMap subs) gw.replacement =
      Option.none :=
    substTy_none_of_occurs (buildSubstitutionMap subs) p hmap gw.replacement hocc
  simp only [ProtocolConformance.getTypeWitness, hmiss, hgen, hsub]

/-- C4 (witness): specializing `normalB` with an empty substitution list
while archetype 2 occurs in its witness's replacement type fails with a
strict-substitution error. -/
theorem c4_strict_substitution_failure_witness :
    occursIn 2 genWitnessB.replacement = true ∧
    (ProtocolConformance.specialized 1 (ProtocolConformance.normal normalB)
        [] []).getTypeWitness envB assocB =
      .error ConfError.substitutionFailure :=
  ⟨rfl, c4_strict_substitution_failure envB 1
    (ProtocolConformance.normal normalB) [] [] assocB (0, assocB)
    genWitnessB (ProtocolConformance.normal normalB) 2
    rfl rfl rfl (by intro s hs; cases hs)⟩

/-- C6: on the slow path, a "no" answer from the module's conformance
oracle for any required interface aborts the computation with an
invariant-violation error; execution never continues past the failed
lookup to build a `Substitution` with a missing conformance. -/
theorem c6_oracle_no_answer_aborts (env : Env)
    (oid : ObjectId) (generic : ProtocolConformance)
    (subs : List Substitution) (cache : List (AssociatedTypeDecl × Substitution))
    (assocType : AssociatedTypeDecl) (rg : SubstRef) (gw : Substitution)
    (generic' : ProtocolConformance) (specializedType : Ty) (q : ProtocolId)
    (hmiss : lookupAssoc cache assocType = Option.none)
    (hgen : generic.getTypeWitness env assocType = .ok (rg, gw, generic'))
    (hsub : substTy (buildSubstitutionMap subs) gw.replacement =
      Option.some specializedType)
    (hchanged : specializedType ≠ gw.replacement)
    (hq : q ∈ env.archConformsTo gw.archetype)
    (hno : env.lookupConformance specializedType q = Option.none) :
    (ProtocolConformance.specialized oid generic subs cache).getTypeWitness
        env assocType = .error ConfError.invariantViolation := by
  have hg : gatherConformances env specializedType
      (env.archConformsTo gw.archetype) = Option.none :=
    gatherConformances_none_of_lookup_none env specializedType _ q hq hno
  simp only [ProtocolConformance.getTypeWitness, hmiss, hgen, hsub, hg]
  rw [if_neg hchanged]

/-- The environment for the failed-oracle scenario: archetype 2 requires
interface 4, but the oracle answers "no" for every query. -/
def envC : Env :=
  ⟨fun _ _ => Option.none,
    fun a => if a = 2 then [4] else [],
    fun _ => Ty.base 0, fun _ => []⟩

/-- C6 (witness): the abort theorem applied to a concrete scenario whose
oracle denies the required conformance. -/
theorem c6_oracle_no_answer_aborts_witness :
    (4 ∈ envC.archConformsTo 2) ∧
    (ProtocolConformance.specialized 1 (ProtocolConformance.normal normalB)
        subsB []).getTypeWitness envC assocB =
      .error ConfError.invariantViolation :=
  ⟨by decide, c6_oracle_no_answer_aborts envC 1
    (ProtocolConformance.normal normalB) subsB [] assocB (0, assocB)
    genWitnessB (ProtocolConformance.normal normalB) (Ty.base 9) 4
    rfl rfl rfl (by decide) (by decide) rfl⟩

/-- C7: `getWitness` on a specialized conformance is a direct pass-through
to the wrapped generic conformance's `getWitness`, with no substitution
applied to the result. -/
theorem c7_getWitness_pass_through (oid : ObjectId)
    (generic : ProtocolConformance) (subs : List Substitution)
    (cache : List (AssociatedTypeDecl × Substitution))
    (requirement : ValueDecl) :
    (ProtocolConformance.specialized oid generic subs cache).getWitness
        requirement = generic.getWitness requirement := rfl

/-- C9: the `CONFORMANCE_SUBCLASS_DISPATCH` macro's `switch` dispatches
the `Specialized` case to `SpecializedProtocolConformance`, but its
`static_assert` checks that `InheritedProtocolConformance` — not
`SpecializedProtocolConformance` — overrides the method, so the claimed
compile-time enforcement of a `Specialized` override is absent. -/
theorem c9_dispatch_assert_checks_wrong_class :
    dispatchAssertCheckedClass ProtocolConformanceKind.specialized =
      ProtocolConformanceKind.inherited ∧
    dispatchAssertCheckedClass ProtocolConformanceKind.specialized ≠
      ProtocolConformanceKind.specialized ∧
    dispatchCastTarget ProtocolConformanceKind.specialized =
      ProtocolConformanceKind.specialized ∧
    dispatchAssertCheckedClass ProtocolConformanceKind.normal =
      ProtocolConformanceKind.normal ∧
    dispatchAssertCheckedClass ProtocolConformanceKind.inherited =
      ProtocolConformanceKind.inherited := by
  refine ⟨rfl, ?_, rfl, rfl, rfl⟩
  intro h
  cases h

/-- C3: a call to `getTypeWitness` on a specialized conformance always
returns a reference to the conformance's own cache entry for the queried
associated type; the entry is stored by the first call, a repeated call
returns the identical reference and value and leaves the conformance
unchanged, and every cache entry present before the call survives it with
the same value (entries are never overwritten or removed). -/
theorem c3_idempotent_monotonic_cache (env : Env) (oid : ObjectId)
    (generic : ProtocolConformance) (subs : List Substitution)
    (cache : List (AssociatedTypeDecl × Substitution))
    (assocType : AssociatedTypeDecl) (r : SubstRef) (s : Substitution)
    (c' : ProtocolConformance)
    (h : (ProtocolConformance.specialized oid generic subs cache).getTypeWitness
      env assocType = .ok (r, s, c')) :
    c'.getTypeWitness env assocType = .ok (r, s, c') ∧
    r = (oid, assocType) ∧
    ∃ generic' cache',
      c' = ProtocolConformance.specialized oid generic' subs cache' ∧
      lookupAssoc cache' assocType = Option.some s ∧
      ∀ b sb, lookupAssoc cache b = Option.some sb →
        lookupAssoc cache' b = Option.some sb := by
  obtain ⟨r1, r2⟩ := r
  rw [ProtocolConformance.getTypeWitness] at h
  cases hmiss : lookupAssoc cache assocType with
  | some s0 =>
      simp only [hmiss] at h
      simp only [Except.ok.injEq, Prod.mk.injEq] at h
      obtain ⟨⟨hr1, hr2⟩, hs, hc⟩ := h
      subst hr1; subst hr2; subst hs; subst hc
      refine ⟨?_, rfl, generic, cache, rfl, hmiss, fun b sb hb => hb⟩
      rw [ProtocolConformance.getTypeWitness]
      simp only [hmiss]
  | none =>
      simp only [hmiss] at h
      cases hgen : generic.getTypeWitness env assocType with
      | error e => rw [hgen] at h; cases h
      | ok res =>
          obtain ⟨rg, gw, generic'⟩ := res
          simp only [hgen] at h
          cases hsub : substTy (buildSubstitutionMap subs) gw.replacement with
          | none => rw [hsub] at h; cases h
          | some t =>
              simp only [hsub] at h
              by_cases ht : t = gw.replacement
              · rw [if_pos ht] at h
                simp only [Except.ok.injEq, Prod.mk.injEq] at h
                obtain ⟨⟨hr1, hr2⟩, hs, hc⟩ := h
                subst hr1; subst hr2; subst hs; subst hc
                refine ⟨?_, rfl, generic', updateAssoc cache assocType gw, rfl,
                  lookupAssoc_updateAssoc_self _ _ _,
                  fun b sb hb => lookupAssoc_updateAssoc_mono _ _ _ _ _ hmiss hb⟩
                rw [ProtocolConformance.getTypeWitness]
                simp only [lookupAssoc_updateAssoc_self]
              · rw [if_neg ht] at h
                cases hg : gatherConformances env t
                    (env.archConformsTo gw.archetype) with
                | none => rw [hg] at h; cases h
                | some confs =>
                    simp only [hg] at h
                    simp only [Except.ok.injEq, Prod.mk.injEq] at h
                    obtain ⟨⟨hr1, hr2⟩, hs, hc⟩ := h
                    subst hr1; subst hr2; subst hs; subst hc
                    refine ⟨?_, rfl, generic',
                      updateAssoc cache assocType ⟨gw.archetype, t, confs⟩, rfl,
                      lookupAssoc_updateAssoc_self _ _ _,
                      fun b sb hb =>
                        lookupAssoc_updateAssoc_mono _ _ _ _ _ hmiss hb⟩
                    rw [ProtocolConformance.getTypeWitness]
                    simp only [lookupAssoc_updateAssoc_self]

/-- The fast-path scenario's conformance after its cache was populated by
the first `getTypeWitness` call. -/
def specializedACached : ProtocolConformance :=
  ProtocolConformance.specialized 1 (ProtocolConformance.normal normalA) []
    [(assocA, genWitnessA)]

/-- C3 (witness): the idempotence theorem applied to the concrete
fast-path scenario (the first call populated the cache with
`genWitnessA`). -/
theorem c3_idempotent_monotonic_cache_witness :
    specializedACached.getTypeWitness envA assocA =
      .ok (((1, assocA) : SubstRef), genWitnessA, specializedACached) ∧
    ((1, assocA) : SubstRef) = (1, assocA) ∧
    ∃ generic' cache',
      specializedACached =
        ProtocolConformance.specialized 1 generic' [] cache' ∧
      lookupAssoc cache' assocA = Option.some genWitnessA ∧
      ∀ b sb,
        lookupAssoc ([] : List (AssociatedTypeDecl × Substitution)) b =
          Option.some sb →
        lookupAssoc cache' b = Option.some sb :=
  c3_idempotent_monotonic_cache envA 1 (ProtocolConformance.normal normalA)
    [] [] assocA (1, assocA) genWitnessA specializedACached rfl

/-- C5: `setTypeWitness` fails exactly when the associated type belongs to
the wrong protocol, its witness is already recorded, or the conformance is
complete, and otherwise inserts the entry; `setWitness` fails under the
same three preconditions plus the requirement being an associated-type
declaration, and otherwise inserts; a second setter call for the same key
always fails, and any setter call on a complete conformance always
fails. -/
theorem c5_setter_preconditions :
    (∀ (n : NormalConformance) (a : AssociatedTypeDecl) (s : Substitution),
        n.setTypeWitness a s = Option.none ↔
          (n.protocol ≠ a.declContext ∨
            (lookupAssoc n.typeWitnesses a).isSome = true ∨
            n.state = ProtocolConformanceState.complete)) ∧
    (∀ (n : NormalConformance) (a : AssociatedTypeDecl) (s : Substitution),
        n.protocol = a.declContext →
        lookupAssoc n.typeWitnesses a = Option.none →
        n.state ≠ ProtocolConformanceState.complete →
        n.setTypeWitness a s = Option.some
          { n with typeWitnesses := updateAssoc n.typeWitnesses a s }) ∧
    (∀ (n : NormalConformance) (r : ValueDecl) (w : ConcreteDeclRef),
        n.setWitness r w = Option.none ↔
          (r.isAssociatedType = true ∨ n.protocol ≠ r.declContext ∨
            (lookupAssoc n.mapping r).isSome = true ∨
            n.state = ProtocolConformanceState.complete)) ∧
    (∀ (n : NormalConformance) (r : ValueDecl) (w : ConcreteDeclRef),
        r.isAssociatedType = false →
        n.protocol = r.declContext →
        lookupAssoc n.mapping r = Option.none →
        n.state ≠ ProtocolConformanceState.complete →
        n.setWitness r w = Option.some
          { n with mapping := updateAssoc n.mapping r w }) ∧
    (∀ (n n' : NormalConformance) (a : AssociatedTypeDecl) (s s' : Substitution),
        n.setTypeWitness a s = Option.some n' →
        n'.setTypeWitness a s' = Option.none) ∧
    (∀ (n n' : NormalConformance) (r : ValueDecl) (w w' : ConcreteDeclRef),
        n.setWitness r w = Option.some n' → n'.setWitness r w' = Option.none) ∧
    (∀ (n : NormalConformance) (a : AssociatedTypeDecl) (s : Substitution),
        n.state = ProtocolConformanceState.complete →
        n.setTypeWitness a s = Option.none) ∧
    (∀ (n : NormalConformance) (r : ValueDecl) (w : ConcreteDeclRef),
        n.state = ProtocolConformanceState.complete →
        n.setWitness r w = Option.none) := by
  refine ⟨?_, ?_, ?_, ?_, ?_, ?_, ?_, ?_⟩
  · intro n a s
    rw [NormalConformance.setTypeWitness]
    by_cases h1 : n.protocol = a.declContext <;>
      by_cases h2 : (lookupAssoc n.typeWitnesses a).isSome <;>
        by_cases h3 : n.state = ProtocolConformanceState.complete <;>
          simp [h1, h2, h3, NormalConformance.isComplete]
  · intro n a s h1 h2 h3
    rw [NormalConformance.setTypeWitness]
    simp [h1, h2, h3, NormalConformance.isComplete]
  · intro n r w
    rw [NormalConformance.setWitness]
    by_cases h0 : r.isAssociatedType <;>
      by_cases h1 : n.protocol = r.declContext <;>
        by_cases h2 : (lookupAssoc n.mapping r).isSome <;>
          by_cases h3 : n.state = ProtocolConformanceState.complete <;>
            simp [h0, h1, h2, h3, NormalConformance.isComplete]
  · intro n r w h0 h1 h2 h3
    rw [NormalConformance.setWitness]
    simp [h0, h1, h2, h3, NormalConformance.isComplete]
  · intro n n' a s s' h
    rw [NormalConformance.setTypeWitness] at h
    split at h
    · cases h
    · split at h
      · cases h
      · split at h
        · cases h
        · cases h
          rw [NormalConformance.setTypeWitness]
          simp [lookupAssoc_updateAssoc_self]
  · intro n n' r w w' h
    rw [NormalConformance.setWitness] at h
    split at h
    · cases h
    · split at h
      · cases h
      · split at h
        · cases h
        · split at h
          · cases h
          · cases h
            rw [NormalConformance.setWitness]
            simp_all [lookupAssoc_updateAssoc_self]
  · intro n a s h
    simp [NormalConformance.setTypeWitness, NormalConformance.isComplete, h]
  · intro n r w h
    simp [NormalConformance.setWitness, NormalConformance.isComplete, h]

/-- An empty incomplete normal conformance for protocol 0, used to
exercise the write-once setters. -/
def normalEmpty : NormalConformance :=
  ⟨0, 0, Ty.base 1, ProtocolConformanceState.incomplete, [], []⟩

/-- The conformance after its first (successful) `setTypeWitness` call. -/
def normalEmptySet : NormalConformance :=
  ⟨0, 0, Ty.base 1, ProtocolConformanceState.incomplete,
    [(assocA, genWitnessA)], []⟩

/-- C5 (witness): the write-once property applied to a concrete
conformance — the first `setTypeWitness` succeeds and a second call for
the same key fails. -/
theorem c5_setter_preconditions_witness :
    NormalConformance.setTypeWitness normalEmptySet assocA genWitnessA =
      Option.none :=
  c5_setter_preconditions.2.2.2.2.1 normalEmpty normalEmptySet assocA
    genWitnessA genWitnessA rfl

/-- C8: `getGenericParams` on a normal conformance strips nested nominal
parents from the conforming type; a null root or a non-generic root yields
a null parameter list, a bound generic root yields its declaration's
formal generic parameter list (under the source's constrained-generic
assertion); on specialized and inherited conformances it returns a null
parameter list unconditionally. -/
theorem c8_generic_params_chain_walk (env : Env) :
    (∀ (n : NormalConformance) (d : DeclId) (args : TyList),
        stripNominalParents n.conformingType =
          Option.some (Ty.boundGeneric d args) →
        Ty.boundGeneric d args = env.declaredTypeInContext d →
        (ProtocolConformance.normal n).getGenericParams env =
          .ok (Option.some (env.genericParamsOf d))) ∧
    (∀ n : NormalConformance,
        stripNominalParents n.conformingType = Option.none →
        (ProtocolConformance.normal n).getGenericParams env =
          .ok Option.none) ∧
    (∀ (n : NormalConformance) (t : Ty),
        stripNominalParents n.conformingType = Option.some t →
        (∀ (d : DeclId) (args : TyList), t ≠ Ty.boundGeneric d args) →
        (ProtocolConformance.normal n).getGenericParams env =
          .ok Option.none) ∧
    (∀ (oid : ObjectId) (g : ProtocolConformance) (subs : List Substitution)
        (cache : List (AssociatedTypeDecl × Substitution)),
        (ProtocolConformance.specialized oid g subs cache).getGenericParams
          env = .ok Option.none) ∧
    (∀ u : ProtocolConformance,
        (ProtocolConformance.inherited u).getGenericParams env =
          .ok Option.none) := by
  refine ⟨?_, ?_, ?_, ?_, ?_⟩
  · intro n d args hstrip heq
    simp only [ProtocolConformance.getGenericParams, hstrip]
    rw [if_pos heq]
  · intro n hstrip
    simp only [ProtocolConformance.getGenericParams, hstrip]
  · intro n t hstrip hne
    simp only [ProtocolConformance.getGenericParams, hstrip]

  · intro oid g subs cache
    rfl
  · intro u
    rfl

/-- The doubly-nested conforming type `Outer[T].Inner.Innermost`:
`Outer` (decl 10) is a bound generic instantiation with one argument,
`Inner` (decl 11) and `Innermost` (decl 12) are non-generic nominal types
nested inside it. -/
def tyOuter : Ty := Ty.boundGeneric 10 (TyList.cons (Ty.archetype 0) TyList.nil)

/-- `Outer[T].Inner`. -/
def tyInner : Ty := Ty.nominal 11 (TyOpt.some tyOuter)

/-- `Outer[T].Inner.Innermost`. -/
def tyInnermost : Ty := Ty.nominal 12 (TyOpt.some tyInner)

/-- A normal conformance declared on the doubly-nested type. -/
def normalNested : NormalConformance :=
  ⟨0, 7, tyInnermost, ProtocolConformanceState.incomplete, [], []⟩

/-- The environment for the chain-walk scenario: declaration 10 (`Outer`)
declares one generic parameter and its declared type in context is
`tyOuter`. -/
def envNested : Env :=
  ⟨fun _ _ => Option.none, fun _ => [],
    fun d => if d = 10 then tyOuter else Ty.base 0,
    fun d => if d = 10 then [0] else []⟩

/-- C8 (witness): the chain walk applied to the doubly-nested scenario
returns `Outer`'s parameter list, not a null list. -/
theorem c8_generic_params_chain_walk_witness :
    (ProtocolConformance.normal normalNested).getGenericParams envNested =
      .ok (Option.some [0]) ∧
    (Option.some ([0] : List Nat)) ≠ Option.none :=
  ⟨(c8_generic_params_chain_walk envNested).1 normalNested 10
      (TyList.cons (Ty.archetype 0) TyList.nil) rfl rfl,
    by decide⟩

end ConformanceCore
